import Mathlib

/-!
Verification of the AutoSepolia fund-distribution pipeline.

Shallow embedding of the pipeline's pure core: balance gating
(`checkWalletBalance`), allocation planning and nonce assignment
(`prepareTransaction`), the legacy and two-step `distributeFunds`,
confirmation-timeout handling (`waitForTransactionResult` and the outcome
recording of `sendPreparedTransaction`), the retrying `transferFunds` loop,
the Etherscan gas-price cache (`getEtherscanGasPrice`), and the
address validator (`validateEthereumAddress`).

Amounts are modelled in wei as naturals (TypeScript `bigint`), JavaScript
numbers as exact rationals, and `Math.floor` as `Int.floor`; network reads
(balances, fee data, nonces, receipts) are passed in as explicit inputs and
global mutable caches as explicit state.
-/

namespace AutoSepolia

/-- Gas speed tiers (`GasSpeed` in `src/lib/gas-price.ts`). -/
inductive GasSpeed : Type
  | slow
  | average
  | fast
deriving DecidableEq, Repr

/-- A destination wallet entry, `{ address: string; percentage: number }`.
The percentage is a JavaScript number, modelled as an exact rational. -/
structure DestinationWallet : Type where
  address : String
  percentage : ℚ
deriving DecidableEq, Repr

/-- Standard gas limit of a simple ETH transfer, `BigInt(21000)`. -/
def gasLimit : ℕ := 21000

/-- `ethers.parseEther("0.005")`: the minimum balance gate, in wei. -/
def minBalanceWei : ℕ := 5 * 10 ^ 15

/-- Wei per ETH, the scale factor of `ethers.formatEther`. -/
def weiPerEth : ℕ := 10 ^ 18

/-! ## Balance gate (`checkWalletBalance`, `src/lib/actions.ts`) -/

/-- Result record of `checkWalletBalance`: the balance converted to ETH,
the sufficiency flag and the minimum required (both in ETH). -/
structure BalanceCheckResult : Type where
  balanceEth : ℚ
  hasSufficientBalance : Bool
  minRequired : ℚ
deriving DecidableEq, Repr

/-- `const minBalance = 0.005` in `checkWalletBalance`. -/
def minBalanceEth : ℚ := 5 / 1000

/-- `checkWalletBalance` (`src/lib/actions.ts:54-95`), successful-read path:
converts the wei balance to ETH and compares it with the fixed
`minBalance = 0.005`; the returned `minRequired` is that same constant. -/
def checkWalletBalance (balanceWei : ℕ) : BalanceCheckResult :=
  let balanceEth : ℚ := (balanceWei : ℚ) / (weiPerEth : ℚ)
  { balanceEth := balanceEth
    hasSufficientBalance := decide (minBalanceEth ≤ balanceEth)
    minRequired := minBalanceEth }

/-- `minBalance` expressed in wei: 0.005 ETH. -/
def minRequiredWei : ℕ := 5 * 10 ^ 15

/-- Modelled from the spec (for comparison with the code, claim C6): the
balance gate's threshold as the claim states it — the larger of the fixed
floor and 3 × the fee cost of one simple transfer at the current average
gas price, in ETH. No function of the repository computes this. -/
def claimedMinRequired (avgGasPriceWei : ℕ) : ℚ :=
  max minBalanceEth (3 * ((gasLimit * avgGasPriceWei : ℕ) : ℚ) / (weiPerEth : ℚ))

/-! ## Allocation planner and transaction builder (`prepareTransaction`) -/

/-- A prepared transfer instruction: the `tx` object plus the metadata pushed
onto `preparedTxs` by `prepareTransaction`. -/
structure PreparedTx : Type where
  toAddr : String
  value : ℤ
  nonce : ℕ
  maxFeePerGas : ℕ
  percentage : ℚ
deriving DecidableEq, Repr

/-- The fee reserve withheld from the balance,
`(gasCost * BigInt(destinationWallets.length) * BigInt(12)) / BigInt(10)`
with `gasCost = gasPrice * gasLimit` (1.2 × fee cost × instruction count,
floored by bigint division). -/
def gasReserve (gasPrice n : ℕ) : ℕ := gasPrice * gasLimit * n * 12 / 10

/-- One destination's share of the distributable pool,
`BigInt(Math.floor(Number(availableAmount) * (destWallet.percentage / 100)))`,
with JavaScript number arithmetic idealised as exact rationals. -/
def amountForWallet (availableAmount : ℕ) (percentage : ℚ) : ℤ :=
  Int.floor ((availableAmount : ℚ) * (percentage / 100))

/-- The `for (let i = 0; ...)` loop body of `prepareTransaction`: one
prepared transaction per destination, the i-th carrying `nonce + i`. -/
def buildTxs (availableAmount gasPrice nonce : ℕ) :
    ℕ → List DestinationWallet → List PreparedTx
  | _, [] => []
  | i, d :: rest =>
      { toAddr := d.address
        value := amountForWallet availableAmount d.percentage
        nonce := nonce + i
        maxFeePerGas := gasPrice
        percentage := d.percentage } :: buildTxs availableAmount gasPrice nonce (i + 1) rest

/-- `prepareTransaction` (`src/unnamed/part_002:67-185`) with its network
reads (balance, resolved gas price, pending nonce) supplied as inputs:
gate the balance, reserve fees, split the remainder by percentage and assign
consecutive nonces starting at the pending count. `none` models the thrown
errors (balance below the gate, or no distributable funds after the
reserve). -/
def prepareTransaction (balance gasPrice nonce : ℕ)
    (destinationWallets : List DestinationWallet) : Option (List PreparedTx) :=
  if balance < minBalanceWei then none
  else
    let reserve := gasReserve gasPrice destinationWallets.length
    if balance ≤ reserve then none
    else
      let availableAmount := balance - reserve
      some (buildTxs availableAmount gasPrice nonce 0 destinationWallets)

/-- Two destinations weighted 60/40, for concrete evaluations. -/
def demoDests : List DestinationWallet :=
  [{ address := "0xaaaa", percentage := 60 }, { address := "0xbbbb", percentage := 40 }]

/-- What `prepareTransaction` plans for `demoDests` from a 0.01 ETH balance at
1 gwei starting at nonce 5: pool = 10^16 − 50400000000000. -/
def demoTxs : List PreparedTx :=
  [{ toAddr := "0xaaaa", value := 5969760000000000, nonce := 5,
     maxFeePerGas := 10 ^ 9, percentage := 60 },
   { toAddr := "0xbbbb", value := 3979840000000000, nonce := 6,
     maxFeePerGas := 10 ^ 9, percentage := 40 }]

/-! ## Weight-sum validation (`distributeFunds`) -/

/-- The legacy `distributeFunds` (`src/lib/ethereum.ts:113-145`): validates
`Math.abs(totalPercentage - 100) > 0.01` and throws before any transfer;
otherwise it performs one `transferFunds` call per destination, in order.
The `ok` payload records the destinations for which transfers are attempted;
`error` means no transfer was attempted. -/
def distributeFundsLegacy (destinationWallets : List DestinationWallet) :
    Except String (List DestinationWallet) :=
  let totalPercentage := (destinationWallets.map (·.percentage)).sum
  if 1 / 100 < |totalPercentage - 100| then
    Except.error "Total percentage must equal 100%"
  else
    Except.ok destinationWallets

/-- The two-step `distributeFunds` (`src/unnamed/part_002:326-343`): a plain
wrapper around `prepareTransaction` followed by `sendPreparedTransaction`,
with no weight-sum validation of its own. The instructions it builds are
exactly `prepareTransaction`'s. -/
def distributeFundsTwoStep (balance gasPrice nonce : ℕ)
    (destinationWallets : List DestinationWallet) : Option (List PreparedTx) :=
  prepareTransaction balance gasPrice nonce destinationWallets

/-- A single destination whose weight sum (150) misses 100 by far more than
the 0.01 epsilon. -/
def badWeightDests : List DestinationWallet :=
  [{ address := "0xcccc", percentage := 150 }]

/-! ## Account-status fold (`executeTransactions`, `src/lib/actions.ts`) -/

/-- `WalletStatus` (`src/lib/actions.ts:14`). -/
inductive WalletStatus : Type
  | idle
  | processing
  | success
  | error
  | low_balance
deriving DecidableEq, Repr

/-- The per-account core of `executeTransactions` (`src/lib/actions.ts:219-272`):
`txSuccess` lists the per-destination `success` flags returned by
`sendPreparedTransaction`, and `balanceReread` is the follow-up
`getWalletBalance` read (`none` models a thrown read error). If any outcome
succeeded and the re-read succeeds the account is reported `success`; if no
outcome succeeded the thrown "All transfers failed" error is caught and the
account is `error`; a failing re-read after a successful transfer also lands
in the catch block and yields `error`. -/
def executeAccountStatus (txSuccess : List Bool) (balanceReread : Option ℕ) :
    WalletStatus :=
  if txSuccess.any id then
    match balanceReread with
    | some _ => WalletStatus.success
    | none => WalletStatus.error
  else WalletStatus.error

/-! ## Confirmation polling (`waitForTransaction` and outcome recording,
`src/unnamed/part_002`) -/

/-- The receipt-like object `waitForTransaction` resolves with. The source's
timeout marker is `{ status: 2, hash, timeout: true }`; a transaction found
unmined after the deadline yields `{ status: 1, blockNumber: 0, ... }` with
no `timeout` field (modelled `timeout := false`); a polled receipt carries
its own block number and no `timeout` field. -/
structure ReceiptLike : Type where
  status : ℕ
  blockNumber : ℕ
  timeout : Bool
deriving DecidableEq, Repr

/-- End state of `waitForTransaction` (`src/unnamed/part_002:5-64`):
`receiptWithinTimeout` is the receipt observed by polling before the
deadline, if any; `foundAfterTimeout` says whether the final
`getTransaction` lookup still finds the transaction after the deadline
passed. -/
def waitForTransactionResult (receiptWithinTimeout : Option ReceiptLike)
    (foundAfterTimeout : Bool) : ReceiptLike :=
  match receiptWithinTimeout with
  | some r => r
  | none =>
    if foundAfterTimeout then { status := 1, blockNumber := 0, timeout := false }
    else { status := 2, blockNumber := 0, timeout := true }

/-- A per-destination submission outcome, as pushed onto `results` by
`sendPreparedTransaction` (`src/unnamed/part_002:205-229`). -/
structure SubmissionOutcome : Type where
  success : Bool
  pending : Bool
  blockNumber : Option ℕ
deriving DecidableEq, Repr

/-- How `sendPreparedTransaction` records the outcome of one broadcast
transaction from its `waitForTransaction` result: `receipt.timeout` selects
the pending branch, anything else is recorded as a confirmed success with
the receipt's block number. -/
def recordOutcome (receipt : ReceiptLike) : SubmissionOutcome :=
  if receipt.timeout then { success := true, pending := true, blockNumber := none }
  else { success := true, pending := false, blockNumber := some receipt.blockNumber }

/-! ## Fee-escalating retry (`transferFunds`, `src/lib/gas-price.ts:534-673`) -/

/-- The numerator of the tier multiplier used by `getGasPrice`
(`src/lib/gas-price.ts:96-111`, provider `maxFeePerGas` branch): slow 0.8,
average 1.0, fast 1.3, written as tenths so JavaScript's
`Math.floor(Number(x) * multiplier)` is the exact `x * m / 10` floor. -/
def speedMultiplierTenths : GasSpeed → ℕ
  | GasSpeed.slow => 8
  | GasSpeed.average => 10
  | GasSpeed.fast => 13

/-- `getGasPrice` when the provider supplies `maxFeePerGas`:
`BigInt(Math.floor(Number(feeData.maxFeePerGas) * multiplier))`. -/
def getGasPriceFromMaxFee (maxFeePerGas : ℕ) (speed : GasSpeed) : ℕ :=
  maxFeePerGas * speedMultiplierTenths speed / 10

/-- The speed used on a retry attempt (`transferFunds`,
`src/lib/gas-price.ts:583-588`): attempt 0 keeps the requested speed,
attempt 1 escalates to `average`, attempt 2 to `fast`. -/
def retrySpeed (requested : GasSpeed) : ℕ → GasSpeed
  | 1 => GasSpeed.average
  | 2 => GasSpeed.fast
  | _ => requested

/-- The gas price used on an attempt: the freshly resolved tier price,
boosted for retries by `boostFactor = 1.0 + attempt * 0.3` (so ×1.0, ×1.3,
×1.6), `attempt > 0 ? BigInt(Math.floor(Number(gasPrice) * boostFactor)) :
gasPrice`, with the float boost written as the exact `(10 + 3·attempt)/10`
floor. -/
def attemptGasPrice (requested : GasSpeed) (maxFeePerGas attempt : ℕ) : ℕ :=
  let gasPrice := getGasPriceFromMaxFee maxFeePerGas (retrySpeed requested attempt)
  if attempt = 0 then gasPrice else gasPrice * (10 + 3 * attempt) / 10

/-- One record per broadcast attempt of `transferFunds`: the speed, the
(boosted) gas price and the nonce placed in the transaction. -/
structure AttemptRecord : Type where
  speed : GasSpeed
  gasPrice : ℕ
  nonce : ℕ
deriving DecidableEq, Repr

/-- `const maxRetries = 3`. -/
def maxRetries : ℕ := 3

/-- The retry loop of `transferFunds` with the provider fee snapshot frozen
at `maxFeePerGas`: simulates the `nonce === null` latch — the pending nonce
is fetched on the first attempt and the latched value is reused by every
later attempt. -/
def transferAttemptsAux (requested : GasSpeed) (maxFeePerGas pendingNonce : ℕ) :
    ℕ → ℕ → Option ℕ → List AttemptRecord
  | 0, _, _ => []
  | fuel + 1, attempt, latched =>
    let nonceUsed := latched.getD pendingNonce
    { speed := retrySpeed requested attempt
      gasPrice := attemptGasPrice requested maxFeePerGas attempt
      nonce := nonceUsed } ::
      transferAttemptsAux requested maxFeePerGas pendingNonce fuel (attempt + 1)
        (some nonceUsed)

/-- All (up to `maxRetries = 3`) broadcast attempts of `transferFunds`. -/
def transferAttempts (requested : GasSpeed) (maxFeePerGas pendingNonce : ℕ) :
    List AttemptRecord :=
  transferAttemptsAux requested maxFeePerGas pendingNonce maxRetries 0 none

/-! ## Etherscan gas-price cache (`getEtherscanGasPrice`, `getGasPrice`,
`src/lib/gas-price.ts`) -/

/-- The `result` payload of the Etherscan gas oracle, prices in gwei. -/
structure GasOracleResult : Type where
  SafeGasPrice : ℕ
  ProposeGasPrice : ℕ
  FastGasPrice : ℕ
deriving DecidableEq, Repr

/-- The module-level mutable cache (`cachedEtherscanGasPrice`,
`lastEtherscanFetch`) as explicit state; times in milliseconds. -/
structure EtherscanCache : Type where
  cachedGasPrice : Option GasOracleResult
  lastFetch : ℕ
deriving DecidableEq, Repr

/-- `CACHE_DURATION = 2 * 60 * 1000` (2 minutes). -/
def CACHE_DURATION : ℕ := 2 * 60 * 1000

/-- `getEtherscanGasPrice` (`src/lib/gas-price.ts:31-74`) as a state
transformer: returns the response, the updated cache and whether an
external call was made. `fetchResult` models the network response of a
fetch, were one made (`none` covers both a failed HTTP request and an
Etherscan `status ≠ "1"` reply, neither of which updates the cache). -/
def getEtherscanGasPrice (st : EtherscanCache) (now : ℕ)
    (fetchResult : Option GasOracleResult) :
    Option GasOracleResult × EtherscanCache × Bool :=
  match st.cachedGasPrice with
  | some cached =>
    if now - st.lastFetch < CACHE_DURATION then (some cached, st, false)
    else
      match fetchResult with
      | some data => (some data, { cachedGasPrice := some data, lastFetch := now }, true)
      | none => (none, st, true)
  | none =>
    match fetchResult with
    | some data => (some data, { cachedGasPrice := some data, lastFetch := now }, true)
    | none => (none, st, true)

/-- Tier selection of `getGasPrice`'s Etherscan fallback
(`src/lib/gas-price.ts:140-158`): pick the oracle field matching the speed. -/
def selectGasPriceGwei (speed : GasSpeed) (data : GasOracleResult) : ℕ :=
  match speed with
  | GasSpeed.slow => data.SafeGasPrice
  | GasSpeed.fast => data.FastGasPrice
  | GasSpeed.average => data.ProposeGasPrice

/-- The wei quote `getGasPrice` derives from an Etherscan response
(`ethers.parseUnits(gasPriceGwei, "gwei")`). -/
def etherscanQuoteWei (speed : GasSpeed) (response : Option GasOracleResult) :
    Option ℕ :=
  response.map (fun data => selectGasPriceGwei speed data * 10 ^ 9)

/-! ## Address validation (`validateEthereumAddress`,
`src/lib/validation.ts`) -/

/-- The character class `[0-9a-fA-F]` of the validation regex. -/
def isHexChar (c : Char) : Bool :=
  (decide ('0' ≤ c) && decide (c ≤ '9')) ||
  (decide ('a' ≤ c) && decide (c ≤ 'f')) ||
  (decide ('A' ≤ c) && decide (c ≤ 'F'))

/-- ASCII whitespace, for the `address.trim() === ""` check. -/
def isWhitespaceChar (c : Char) : Bool :=
  c = ' ' || c = '\t' || c = '\n' || c = '\r'

/-- `String.prototype.trim`, on strings modelled as character lists. -/
def trimChars (l : List Char) : List Char :=
  ((l.dropWhile isWhitespaceChar).reverse.dropWhile isWhitespaceChar).reverse

/-- The regex test `/^0x[0-9a-fA-F]+$/.test(address)`: a `0x` prefix
followed by one or more hex characters up to the end. -/
def hexAddressRegexTest (address : List Char) : Bool :=
  address.take 2 == ['0', 'x'] && !(address.drop 2).isEmpty &&
    (address.drop 2).all isHexChar

/-- `validateEthereumAddress` (`src/lib/validation.ts:35-57`), strings
modelled as character lists: the empty/whitespace check, the
`startsWith("0x")` check, the length-42 check, then the hex regex. Returns
the `isValid` flag; no checksum (mixed-case) verification is performed
anywhere in the chain. -/
def validateEthereumAddress (address : List Char) : Bool :=
  if address.isEmpty || (trimChars address).isEmpty then false
  else if !(address.take 2 == ['0', 'x']) then false
  else if !(address.length == 42) then false
  else hexAddressRegexTest address

end AutoSepolia

namespace AutoSepolia

/-- Superadditivity of `Int.floor` over a list sum: the sum of the floors is
at most the floor of the sum. -/
theorem sum_map_floor_le (l : List ℚ) : (l.map Int.floor).sum ≤ Int.floor l.sum := by
  induction l with
  | nil => simp
  | cons x xs ih =>
    simp only [List.map_cons, List.sum_cons]
    calc Int.floor x + (xs.map Int.floor).sum
        ≤ Int.floor x + Int.floor xs.sum := by omega
      _ ≤ Int.floor (x + xs.sum) := by
          rw [Int.le_floor]
          push_cast
          exact add_le_add (Int.floor_le x) (Int.floor_le xs.sum)

/-- The values the loop plans: one floor-share per destination, in order. -/
theorem buildTxs_map_value (availableAmount gasPrice nonce i : ℕ)
    (dests : List DestinationWallet) :
    (buildTxs availableAmount gasPrice nonce i dests).map (·.value) =
      dests.map (fun d => amountForWallet availableAmount d.percentage) := by
  induction dests generalizing i with
  | nil => rfl
  | cons d rest ih => simp [buildTxs, ih]

/-- The nonces the loop assigns: `nonce + i, nonce + i + 1, …`, one per
destination. -/
theorem buildTxs_map_nonce (availableAmount gasPrice nonce i : ℕ)
    (dests : List DestinationWallet) :
    (buildTxs availableAmount gasPrice nonce i dests).map (·.nonce) =
      List.range' (nonce + i) dests.length := by
  induction dests generalizing i with
  | nil => rfl
  | cons d rest ih =>
    simp only [buildTxs, List.map_cons, List.length_cons, List.range'_succ, ih]
    rfl

/-- The planned values of a successful `prepareTransaction`, destination by
destination. -/
theorem prepareTransaction_values (balance gasPrice nonce : ℕ)
    (destinationWallets : List DestinationWallet) (txs : List PreparedTx)
    (hp : prepareTransaction balance gasPrice nonce destinationWallets = some txs) :
    txs.map (·.value) =
      destinationWallets.map (fun d =>
        amountForWallet (balance - gasReserve gasPrice destinationWallets.length)
          d.percentage) := by
  simp only [prepareTransaction] at hp
  split at hp
  · exact absurd hp (by simp)
  · split at hp
    · exact absurd hp (by simp)
    · rw [Option.some_inj] at hp
      subst hp
      exact buildTxs_map_value _ _ _ _ _

/-- A successful `prepareTransaction` implies the balance strictly exceeds
the fee reserve (otherwise the "not enough balance" error is thrown). -/
theorem prepareTransaction_reserve_lt (balance gasPrice nonce : ℕ)
    (destinationWallets : List DestinationWallet) (txs : List PreparedTx)
    (hp : prepareTransaction balance gasPrice nonce destinationWallets = some txs) :
    gasReserve gasPrice destinationWallets.length < balance := by
  simp only [prepareTransaction] at hp
  split at hp
  · exact absurd hp (by simp)
  · split at hp
    · exact absurd hp (by simp)
    · omega

/-- C1: when the destination weights sum to 100, `prepareTransaction` plans
each destination's amount as `floor(distributablePool × weightPercentage / 100)`
of the pool left after reserving `feeCost × instructionCount × 1.2` from the
balance, the planned amounts sum to at most the distributable pool, and the
pool is at most `spendableBalance − reserve`. -/
theorem prepareTransaction_allocation (balance gasPrice nonce : ℕ)
    (destinationWallets : List DestinationWallet) (txs : List PreparedTx)
    (hw : (destinationWallets.map (·.percentage)).sum = 100)
    (hp : prepareTransaction balance gasPrice nonce destinationWallets = some txs) :
    txs.map (·.value) =
      destinationWallets.map (fun d =>
        Int.floor (((balance - gasReserve gasPrice destinationWallets.length : ℕ) : ℚ)
          * d.percentage / 100)) ∧
    (txs.map (·.value)).sum ≤
      ((balance - gasReserve gasPrice destinationWallets.length : ℕ) : ℤ) ∧
    ((balance - gasReserve gasPrice destinationWallets.length : ℕ) : ℤ) ≤
      (balance : ℤ) - (gasReserve gasPrice destinationWallets.length : ℤ) := by
  have hlt := prepareTransaction_reserve_lt balance gasPrice nonce destinationWallets txs hp
  have hv := prepareTransaction_values balance gasPrice nonce destinationWallets txs hp
  have hval : txs.map (·.value) =
      destinationWallets.map (fun d =>
        Int.floor (((balance - gasReserve gasPrice destinationWallets.length : ℕ) : ℚ)
          * d.percentage / 100)) := by
    rw [hv]
    simp only [amountForWallet, mul_div_assoc]
  refine ⟨hval, ?_, ?_⟩
  · rw [hval]
    have h1 : (destinationWallets.map (fun d =>
        Int.floor (((balance - gasReserve gasPrice destinationWallets.length : ℕ) : ℚ)
          * d.percentage / 100))) =
        ((destinationWallets.map (fun d =>
          ((balance - gasReserve gasPrice destinationWallets.length : ℕ) : ℚ)
            * d.percentage / 100)).map Int.floor) :=
      (List.map_map Int.floor _ destinationWallets).symm
    rw [h1]
    refine le_trans (sum_map_floor_le _) ?_
    have h2 : (destinationWallets.map (fun d =>
        ((balance - gasReserve gasPrice destinationWallets.length : ℕ) : ℚ)
          * d.percentage / 100)).sum =
        ((balance - gasReserve gasPrice destinationWallets.length : ℕ) : ℚ) := by
      have h3 : (fun d : DestinationWallet =>
          ((balance - gasReserve gasPrice destinationWallets.length : ℕ) : ℚ)
            * d.percentage / 100) =
          fun d : DestinationWallet =>
            (((balance - gasReserve gasPrice destinationWallets.length : ℕ) : ℚ) / 100)
              * d.percentage := by
        funext d; ring
      rw [h3]
      have h4 : (destinationWallets.map fun d : DestinationWallet =>
          (((balance - gasReserve gasPrice destinationWallets.length : ℕ) : ℚ) / 100)
            * d.percentage) =
          ((destinationWallets.map (·.percentage)).map fun x : ℚ =>
            (((balance - gasReserve gasPrice destinationWallets.length : ℕ) : ℚ) / 100)
              * x) :=
        (List.map_map _ _ destinationWallets).symm
      rw [h4, List.sum_map_mul_left, List.map_id', hw]
      field_simp
    rw [h2, Int.floor_natCast]
  · rw [Nat.cast_sub (le_of_lt hlt)]

/-- C2: the nonces a successful `prepareTransaction` assigns are exactly
`start, start+1, …, start+N−1` (`nonce + i` for the i-th destination), with
no gaps or repeats, in the same order as the planned amounts. -/
theorem prepareTransaction_nonces (balance gasPrice nonce : ℕ)
    (destinationWallets : List DestinationWallet) (txs : List PreparedTx)
    (hp : prepareTransaction balance gasPrice nonce destinationWallets = some txs) :
    txs.map (·.nonce) = List.range' nonce destinationWallets.length := by
  simp only [prepareTransaction] at hp
  split at hp
  · exact absurd hp (by simp)
  · split at hp
    · exact absurd hp (by simp)
    · rw [Option.some_inj] at hp
      subst hp
      simpa using buildTxs_map_nonce
        (balance - gasReserve gasPrice destinationWallets.length) gasPrice nonce 0
        destinationWallets

/-- `prepareTransaction` at the demo input evaluates to `demoTxs`. -/
theorem prepareTransaction_demo :
    prepareTransaction (10 ^ 16) (10 ^ 9) 5 demoDests = some demoTxs := by
  norm_num [prepareTransaction, demoDests, demoTxs, gasReserve, gasLimit,
    minBalanceWei, amountForWallet, buildTxs]

/-- Witness for C1 at a concrete input. -/
theorem prepareTransaction_allocation_witness :
    (demoTxs.map (·.value)).sum ≤
      ((10 ^ 16 - gasReserve (10 ^ 9) demoDests.length : ℕ) : ℤ) := by
  have h := prepareTransaction_allocation (10 ^ 16) (10 ^ 9) 5 demoDests demoTxs
    (by norm_num [demoDests]) prepareTransaction_demo
  exact h.2.1

/-- Witness for C2 at a concrete input. -/
theorem prepareTransaction_nonces_witness :
    demoTxs.map (·.nonce) = List.range' 5 demoDests.length :=
  prepareTransaction_nonces (10 ^ 16) (10 ^ 9) 5 demoDests demoTxs prepareTransaction_demo

/-- The balance-gate threshold in wei equals the ETH constant: `b/10^18 ≥ 5/1000`
iff `b ≥ 5·10^15`. -/
theorem hasSufficient_iff_wei (b : ℕ) :
    (checkWalletBalance b).hasSufficientBalance = true ↔ minRequiredWei ≤ b := by
  simp only [checkWalletBalance, minRequiredWei, minBalanceEth, weiPerEth,
    decide_eq_true_eq]
  rw [div_le_div_iff₀ (by norm_num) (by norm_num : (0:ℚ) < ((10 ^ 18 : ℕ) : ℚ))]
  constructor
  · intro h
    have : ((5 * 10 ^ 15 : ℕ) : ℚ) ≤ (b : ℚ) := by push_cast at h ⊢; linarith
    exact_mod_cast this
  · intro h
    have h' : ((5 * 10 ^ 15 : ℕ) : ℚ) ≤ (b : ℚ) := by exact_mod_cast h
    push_cast at h' ⊢
    linarith

/-- Counterexample to C6: at an average gas price of 100 gwei the claimed
threshold `max(0.005, 3 × 21000 × 100 gwei) = 0.0063 ETH` differs from the
`minRequired` the balance gate actually returns, which is the fixed
constant 0.005 ETH whatever the fee conditions are. -/
theorem checkWalletBalance_minRequired_ne_claimed :
    (checkWalletBalance (10 ^ 16)).minRequired ≠ claimedMinRequired (100 * 10 ^ 9) := by
  simp only [checkWalletBalance, claimedMinRequired, minBalanceEth, gasLimit, weiPerEth]
  rw [max_eq_right (by norm_num)]
  norm_num

/-- C6 (amended): the balance gate's minimum required amount is the fixed
constant 0.005 ETH (5·10^15 wei); it takes no fee input and does not adapt
to network fee conditions, and a balance is sufficient exactly when it is
at least that constant. -/
theorem checkWalletBalance_constant_threshold (b : ℕ) :
    (checkWalletBalance b).minRequired = minBalanceEth ∧
    ((checkWalletBalance b).hasSufficientBalance = true ↔ minRequiredWei ≤ b) :=
  ⟨rfl, hasSufficient_iff_wei b⟩

/-- C7: a balance of exactly `minRequired` (0.005 ETH = 5·10^15 wei) is
classified sufficient, and one wei below it is classified insufficient. -/
theorem checkWalletBalance_boundary :
    (checkWalletBalance minRequiredWei).hasSufficientBalance = true ∧
    (checkWalletBalance (minRequiredWei - 1)).hasSufficientBalance = false := by
  refine ⟨(hasSufficient_iff_wei _).2 le_rfl, ?_⟩
  rw [← Bool.not_eq_true, hasSufficient_iff_wei]
  simp only [minRequiredWei]
  norm_num

/-- Counterexample to C3: a batch whose single destination outcome
succeeded but whose follow-up balance re-read throws is reported `error`
by `executeTransactions`, so an `error` account status can coexist with a
succeeded submission outcome. -/
theorem executeAccountStatus_error_despite_success :
    executeAccountStatus [true] none = WalletStatus.error ∧
    [true].any id = true :=
  ⟨rfl, rfl⟩

/-- C3 (amended): an account reported `success` always has at least one
succeeded outcome; an account with no succeeded outcome is always reported
`error`; and provided the post-transfer balance re-read does not throw, the
account is `error` exactly when every outcome failed. -/
theorem executeAccountStatus_fold (txSuccess : List Bool) (r : Option ℕ) (b : ℕ) :
    (executeAccountStatus txSuccess r = WalletStatus.success →
      txSuccess.any id = true) ∧
    (txSuccess.any id = false → executeAccountStatus txSuccess r = WalletStatus.error) ∧
    (executeAccountStatus txSuccess (some b) = WalletStatus.error ↔
      txSuccess.any id = false) := by
  unfold executeAccountStatus
  by_cases h : txSuccess.any id
  · cases r <;> simp [h]
  · simp only [Bool.not_eq_true] at h
    simp [h]

/-- Counterexample to C4: when receipt polling times out, a transaction
that is still found on the network is recorded with `pending = false` (the
claim says `pending = true`), and a transaction that is not found at all is
still recorded `succeeded = true` (the claim says it is treated as failed). -/
theorem timeout_outcome_counterexample :
    (recordOutcome (waitForTransactionResult none true)).pending = false ∧
    (recordOutcome (waitForTransactionResult none false)).success = true :=
  ⟨rfl, rfl⟩

/-- C4 (amended): on a polling timeout without a receipt the outcome is
always recorded as succeeded; if the final lookup still finds the
transaction it is recorded as a confirmed success (`pending = false`,
block number 0), and only if the transaction cannot be found at all is it
recorded as a pending success (`pending = true`) — never as a failure, and
it is not retried. -/
theorem timeout_outcome_behaviour (foundAfterTimeout : Bool) :
    (recordOutcome (waitForTransactionResult none foundAfterTimeout)).success = true ∧
    (recordOutcome (waitForTransactionResult none foundAfterTimeout)).pending =
      !foundAfterTimeout := by
  cases foundAfterTimeout <;> exact ⟨rfl, rfl⟩

/-- Counterexample to C5: requesting the `fast` tier with a provider fee of
10 wei, attempt 1 resolves `fast` to 13 and attempt 2 resolves `average`
to 10 and boosts it ×1.3 back to 13 — not a strictly higher price than the
previous attempt. -/
theorem transferFunds_price_counterexample :
    (transferAttempts GasSpeed.fast 10 7).map (·.gasPrice) = [13, 13, 20] ∧
    ¬ List.Chain' (· < ·) ((transferAttempts GasSpeed.fast 10 7).map (·.gasPrice)) := by
  refine ⟨rfl, fun h => ?_⟩
  rw [show (transferAttempts GasSpeed.fast 10 7).map (·.gasPrice) = [13, 13, 20]
    from rfl] at h
  exact absurd (List.chain'_cons.mp h).1 (by norm_num)

/-- C5 (amended): every attempt of `transferFunds`'s retry loop reuses the
nonce latched on the first attempt; the tiers escalate
`requested → average → fast` over at most 3 attempts with price boosts
×1.0, ×1.3, ×1.6; and when the provider fee snapshot is unchanged, the
starting tier is `slow` and the fee is at least 2 wei, each retry's price
is strictly higher than the previous attempt's. -/
theorem transferFunds_retry_schedule (requested : GasSpeed)
    (maxFeePerGas pendingNonce : ℕ) :
    ((transferAttempts requested maxFeePerGas pendingNonce).map (·.nonce) =
      List.replicate maxRetries pendingNonce) ∧
    ((transferAttempts requested maxFeePerGas pendingNonce).map (·.speed) =
      [requested, GasSpeed.average, GasSpeed.fast]) ∧
    ((transferAttempts requested maxFeePerGas pendingNonce).map (·.gasPrice) =
      [getGasPriceFromMaxFee maxFeePerGas requested,
       getGasPriceFromMaxFee maxFeePerGas GasSpeed.average * 13 / 10,
       getGasPriceFromMaxFee maxFeePerGas GasSpeed.fast * 16 / 10]) ∧
    (requested = GasSpeed.slow → 2 ≤ maxFeePerGas →
      List.Chain' (· < ·)
        ((transferAttempts requested maxFeePerGas pendingNonce).map (·.gasPrice))) := by
  refine ⟨rfl, ?_, rfl, ?_⟩
  · cases requested <;> rfl
  · rintro rfl hfee
    rw [show (transferAttempts GasSpeed.slow maxFeePerGas pendingNonce).map (·.gasPrice) =
      [maxFeePerGas * 8 / 10, maxFeePerGas * 10 / 10 * 13 / 10,
       maxFeePerGas * 13 / 10 * 16 / 10] from rfl]
    have i2 : maxFeePerGas * 13 / 10 < maxFeePerGas * 13 / 10 * 16 / 10 := by
      have hq : 2 ≤ maxFeePerGas * 13 / 10 := by omega
      generalize maxFeePerGas * 13 / 10 = q at hq ⊢
      omega
    refine List.chain'_cons.2 ⟨?_, List.chain'_cons.2 ⟨?_, List.chain'_singleton _⟩⟩
    · omega
    · calc maxFeePerGas * 10 / 10 * 13 / 10
          = maxFeePerGas * 13 / 10 := by rw [Nat.mul_div_cancel _ (by norm_num)]
        _ < maxFeePerGas * 13 / 10 * 16 / 10 := i2

/-- Counterexample to C8: the two-step `distributeFunds` performs no
weight-sum validation — with a single destination weighted 150% (off by 50,
far beyond the 0.01 epsilon) it still builds a transfer instruction instead
of rejecting the call. -/
theorem distributeFunds_twoStep_no_validation :
    (1 / 100 : ℚ) < |(badWeightDests.map (·.percentage)).sum - 100| ∧
    (distributeFundsTwoStep (10 ^ 16) (10 ^ 9) 0 badWeightDests).isSome = true := by
  constructor
  · norm_num [badWeightDests]
  · norm_num [distributeFundsTwoStep, prepareTransaction, badWeightDests,
      gasReserve, gasLimit, minBalanceWei]

/-- C8 (amended): the legacy `distributeFunds` rejects a destination list
whose weights miss 100 by more than the 0.01 epsilon with the validation
error, before any transfer is attempted, and the error is surfaced rather
than retried; the two-step `distributeFunds` performs no such validation. -/
theorem distributeFundsLegacy_rejects_bad_weights
    (destinationWallets : List DestinationWallet)
    (h : 1 / 100 < |(destinationWallets.map (·.percentage)).sum - 100|) :
    distributeFundsLegacy destinationWallets =
      Except.error "Total percentage must equal 100%" := by
  simp only [distributeFundsLegacy]
  rw [if_pos h]

/-- Witness for the amended C8 at a concrete input. -/
theorem distributeFundsLegacy_rejects_bad_weights_witness :
    distributeFundsLegacy badWeightDests =
      Except.error "Total percentage must equal 100%" :=
  distributeFundsLegacy_rejects_bad_weights badWeightDests (by norm_num [badWeightDests])

/-- C9: a `getEtherscanGasPrice` call that fetched and cached a response at
`t₀` makes any second call within the 2-minute window return the very same
response with no external call made, leaving the cache untouched; the wei
quote derived for any tier is therefore the same. -/
theorem etherscanCache_idempotent (st₀ : EtherscanCache) (t₀ t₁ : ℕ)
    (data : GasOracleResult) (st₁ : EtherscanCache)
    (fetch₂ : Option GasOracleResult) (speed : GasSpeed)
    (h1 : getEtherscanGasPrice st₀ t₀ (some data) = (some data, st₁, true))
    (h01 : t₀ ≤ t₁) (h2 : t₁ < t₀ + CACHE_DURATION) :
    getEtherscanGasPrice st₁ t₁ fetch₂ = (some data, st₁, false) ∧
    etherscanQuoteWei speed (getEtherscanGasPrice st₁ t₁ fetch₂).1 =
      etherscanQuoteWei speed (some data) := by
  obtain ⟨cache₀, last₀⟩ := st₀
  have hst : st₁ = { cachedGasPrice := some data, lastFetch := t₀ } := by
    cases cache₀ with
    | some cached =>
      simp only [getEtherscanGasPrice] at h1
      by_cases ht : t₀ - last₀ < CACHE_DURATION
      · rw [if_pos ht] at h1
        simp at h1
      · rw [if_neg ht] at h1
        simp only [Prod.mk.injEq] at h1
        exact h1.2.1.symm
    | none =>
      simp only [getEtherscanGasPrice, Prod.mk.injEq] at h1
      exact h1.2.1.symm
  have hcall : getEtherscanGasPrice st₁ t₁ fetch₂ = (some data, st₁, false) := by
    subst hst
    simp only [getEtherscanGasPrice]
    rw [if_pos (by omega : t₁ - t₀ < CACHE_DURATION)]
  exact ⟨hcall, by rw [hcall]⟩

/-- Witness for C9 at a concrete input. -/
theorem etherscanCache_idempotent_witness :
    getEtherscanGasPrice
        { cachedGasPrice := some ⟨3, 5, 9⟩, lastFetch := 1000 } 50000 none =
      (some ⟨3, 5, 9⟩,
        { cachedGasPrice := some ⟨3, 5, 9⟩, lastFetch := 1000 }, false) := by
  have h := etherscanCache_idempotent { cachedGasPrice := none, lastFetch := 0 }
    1000 50000 ⟨3, 5, 9⟩ { cachedGasPrice := some ⟨3, 5, 9⟩, lastFetch := 1000 }
    none GasSpeed.average (by decide) (by decide) (by decide)
  exact h.1

/-- A list whose first two characters are `0x` does not trim to empty:
`'0'` is not whitespace, so trimming cannot consume everything. -/
theorem trimChars_ne_nil_of_take2 (address : List Char)
    (h : address.take 2 = ['0', 'x']) : trimChars address ≠ [] := by
  obtain ⟨rest, hrest⟩ : ∃ rest, address = '0' :: 'x' :: rest := by
    match address, h with
    | a :: b :: t, h =>
      simp only [List.take, List.cons.injEq] at h
      exact ⟨t, by rw [h.1, h.2.1]⟩
  subst hrest
  intro hnil
  simp only [trimChars] at hnil
  rw [List.reverse_eq_nil_iff, List.dropWhile_eq_nil_iff] at hnil
  have h0 : ('0' : Char) ∈ ('0' :: 'x' :: rest).dropWhile isWhitespaceChar := by
    rw [show ('0' :: 'x' :: rest).dropWhile isWhitespaceChar = '0' :: 'x' :: rest from rfl]
    exact List.mem_cons_self _ _
  have := hnil '0' (List.mem_reverse.2 h0)
  simp [isWhitespaceChar] at this

/-- C10: the address validator accepts a character list exactly when it
starts with `0x`, is 42 characters long, and its remaining 40 characters
are hexadecimal digits; the hex class covers both letter cases and no
checksum verification is involved. -/
theorem validateEthereumAddress_iff (address : List Char) :
    validateEthereumAddress address = true ↔
      (address.take 2 = ['0', 'x'] ∧ address.length = 42 ∧
        (address.drop 2).all isHexChar = true) := by
  unfold validateEthereumAddress
  constructor
  · intro h
    by_cases hempty : (address.isEmpty || (trimChars address).isEmpty) = true
    · rw [if_pos hempty] at h
      exact absurd h (by simp)
    · rw [if_neg hempty] at h
      by_cases hpre : (!(address.take 2 == ['0', 'x'])) = true
      · rw [if_pos hpre] at h
        exact absurd h (by simp)
      · rw [if_neg hpre] at h
        by_cases hlen : (!(address.length == 42)) = true
        · rw [if_pos hlen] at h
          exact absurd h (by simp)
        · rw [if_neg hlen] at h
          have hpre' : address.take 2 = ['0', 'x'] := by simpa using hpre
          have hlen' : address.length = 42 := by simpa using hlen
          simp only [hexAddressRegexTest, Bool.and_eq_true] at h
          exact ⟨hpre', hlen', h.2⟩
  · rintro ⟨h1, h2, h3⟩
    have hne : address.isEmpty = false := by
      cases address with
      | nil => simp at h2
      | cons a t => rfl
    have htrim : (trimChars address).isEmpty = false := by
      have hne' := trimChars_ne_nil_of_take2 address h1
      cases htc : trimChars address with
      | nil => exact absurd htc hne'
      | cons a t => rfl
    rw [if_neg (by simp [hne, htrim])]
    rw [if_neg (by simp [h1])]
    rw [if_neg (by simp [h2])]
    have hdrop : (address.drop 2).isEmpty = false := by
      cases hd : address.drop 2 with
      | nil =>
        have := congrArg List.length hd
        simp [h2] at this
      | cons a t => rfl
    simp [hexAddressRegexTest, h1, h3, hdrop]

end AutoSepolia
